import Mathlib

/-!
Verification of the convolution and batch-renormalization operators of this
repository (src/chainer/functions/connection/convolution_2d.py and
src/chainer/functions/normalization/batch_renormalization.py).

Tensors are shallowly embedded as total functions from natural-number indices
to rationals together with explicit shape data; machine floating point is
idealized as exact rational arithmetic.  The helpers `get_conv_outsize` and
`im2col` live in chainer/utils/conv.py, which is not part of src/; they are
modelled from the spec (section 4.1) as noted on their doc comments.  All
other definitions are translated directly from the two source files.
-/

namespace ChainerSpec

/-- A dense 4-D array of rationals.  `n1..n4` are the dimension sizes and
`data` the (total) entry function; entries outside the shape are irrelevant
to every statement below. -/
structure Tensor4 where
  n1 : ℕ
  n2 : ℕ
  n3 : ℕ
  n4 : ℕ
  data : ℕ → ℕ → ℕ → ℕ → ℚ

/-- Modelled from the spec: chainer.utils.conv.get_conv_outsize is not under
src/.  Spec 4.1: the output size is `floor((in + 2*pad - dilate*(k-1) - 1) /
stride) + 1`, "with one added when cover_all is set and the computed size
does not exactly reach the padded boundary".  The last window starts at
`(out-1)*stride` in padded coordinates and covers `dilate*(k-1)+1` positions,
so reaching the boundary means `(out-1)*s + d*(k-1)+1 = size + 2*p`.
Python's floor division on integers is `Int.fdiv`. -/
def get_conv_outsize (size k s p d : ℤ) (cover_all : Bool) : ℤ :=
  let base := Int.fdiv (size + 2 * p - d * (k - 1) - 1) s + 1
  if cover_all then
    if (base - 1) * s + (d * (k - 1) + 1) < size + 2 * p then base + 1 else base
  else base

/-- Reading a spatial position of a 4-D tensor with zero fill outside the
spatial extent (spec 4.1: "Padding is conceptually zero-fill outside the
original spatial extent ... out-of-range reads return zero"). -/
def padRead (t : Tensor4) (n c : ℕ) (u v : ℤ) : ℚ :=
  if 0 ≤ u ∧ u < (t.n3 : ℤ) ∧ 0 ≤ v ∧ v < (t.n4 : ℤ) then
    t.data n c u.toNat v.toNat
  else 0

/-- Modelled from the spec: chainer.utils.conv.im2col_cpu is not under src/.
Spec 4.1: `im2col(x, kh, kw, sy, sx, ph, pw, dy, dx, cover_all) -> columns`
of shape `(N, C, kh, kw, out_h, out_w)`; entry `(n, c, j, i, oh, ow)` is the
input pixel of channel `c` at padded position `(oh*sy + j*dy, ow*sx + i*dx)`,
i.e. original position `(oh*sy + j*dy - ph, ow*sx + i*dx - pw)`, zero when
out of range. -/
def im2col (x : Tensor4) (sy sx ph pw dy dx : ℕ)
    (n c j i oh ow : ℕ) : ℚ :=
  padRead x n c ((oh : ℤ) * sy + (j : ℤ) * dy - ph)
    ((ow : ℤ) * sx + (i : ℤ) * dx - pw)

/-- Translation of `Convolution2DFunction._forward_cpu_core` (convolution_2d.py
lines 94-104): `col = im2col(x, kh, kw, ...)` with `kh, kw = W.shape[2:]`,
`y = tensordot(col, W, ((1,2,3),(1,2,3)))` (shape `(N, out_h, out_w, Cout)`,
contracting the channel and kernel axes), `y += b` (broadcast over the last
axis, which is `Cout`), then `rollaxis(y, 3, 1)` giving `(N, Cout, out_h,
out_w)`. -/
def forwardCpuCore (x W : Tensor4) (b : Option (ℕ → ℚ))
    (sy sx ph pw dy dx : ℕ) (cover_all : Bool) : Tensor4 :=
  let out_h := (get_conv_outsize x.n3 W.n3 sy ph dy cover_all).toNat
  let out_w := (get_conv_outsize x.n4 W.n4 sx pw dx cover_all).toNat
  { n1 := x.n1, n2 := W.n1, n3 := out_h, n4 := out_w
    data := fun n co oh ow =>
      (∑ c ∈ Finset.range W.n2, ∑ j ∈ Finset.range W.n3,
        ∑ i ∈ Finset.range W.n4,
          im2col x sy sx ph pw dy dx n c j i oh ow * W.data co c j i)
      + (match b with | none => 0 | some bv => bv co) }

/-- Translation of `Convolution2DFunction._forward_grouped_convolution`
(convolution_2d.py lines 209-241): `iCg = iC / G`, `oCg = oC / G`; `x` is
reshaped to `(N, G, iCg, iH, iW)` and `W` to `(G, oCg, iCg, kH, kW)` (the
reshape is the exhibited regrouping of the leading axes when `x.n2 = G*iCg`
and `W.n2 = iCg`, which the data model of spec 3 guarantees for grouped
weights); `_forward_cpu_core` runs per group, results are stacked on a new
axis 1 and reshaped to `(N, oC, oH, oW)`, so output channel `oc` is channel
`oc % oCg` of group `oc / oCg`. -/
def forwardGroupedConvolution (x W : Tensor4) (b : Option (ℕ → ℚ)) (G : ℕ)
    (sy sx ph pw dy dx : ℕ) (cover_all : Bool) : Tensor4 :=
  let iCg := x.n2 / G
  let oCg := W.n1 / G
  let sub := fun (g : ℕ) =>
    forwardCpuCore
      ⟨x.n1, iCg, x.n3, x.n4, fun n c h w => x.data n (g * iCg + c) h w⟩
      ⟨oCg, iCg, W.n3, W.n4, fun o c j i => W.data (g * oCg + o) c j i⟩
      (b.map (fun bv o => bv (g * oCg + o))) sy sx ph pw dy dx cover_all
  { n1 := x.n1, n2 := W.n1, n3 := (sub 0).n3, n4 := (sub 0).n4
    data := fun n oc oh ow => (sub (oc / oCg)).data n (oc % oCg) oh ow }

/-- The block-diagonal weight of claim C6: each group's filter is zero-padded
into the full input-channel width; output channel `oc` belongs to group
`oc / (Cout/G)` and reads only input channels `[g*iCg, g*iCg + iCg)`. -/
def blockDiagWeight (W : Tensor4) (G : ℕ) : Tensor4 :=
  let oCg := W.n1 / G
  { n1 := W.n1, n2 := G * W.n2, n3 := W.n3, n4 := W.n4
    data := fun oc ci j i =>
      if oc / oCg * W.n2 ≤ ci ∧ ci < oc / oCg * W.n2 + W.n2 then
        W.data oc (ci - oc / oCg * W.n2) j i
      else 0 }

/-- The claim's closed-form output size for one spatial dimension:
`floor((size + 2*pad - dilate*(k-1) - 1)/stride) + 1`. -/
def specConvOutSize (size k s p d : ℤ) : ℤ :=
  Int.fdiv (size + 2 * p - d * (k - 1) - 1) s + 1

/-- The floating-point element types that can reach these operators (the
structural check requires dtype kind `f`); `none` of the unreleased kinds
are modelled beyond what the claims need. -/
inductive DType where
  | float16
  | float32
  | float64
  deriving DecidableEq

/-- Byte width of each element type, used for numpy's promotion rule among
floating dtypes (the wider type wins). -/
def DType.itemsize : DType → ℕ
  | .float16 => 2
  | .float32 => 4
  | .float64 => 8

/-- numpy result-type promotion restricted to the floating dtypes above: the
wider of the two operand types. -/
def promoteTypes (a b : DType) : DType :=
  if a.itemsize < b.itemsize then b else a

/-- The information `type_check` exposes about one input array: its dtype and
its shape. -/
structure TypeInfo where
  dtype : DType
  shape : List ℕ

/-- The dtype kind character as numpy reports it; every modelled dtype is a
floating type, of kind `f`. -/
def DType.kind : DType → Char
  | _ => 'f'

/-- Translation of `Convolution2DFunction.check_type_forward`
(convolution_2d.py lines 50-71): expects 2 or 3 inputs; x and W must have
floating dtype kind and ndim 4; when a bias is present it must share x's
dtype, have ndim 1, and length equal to `W.shape[0]`.  The comparison
`x_type.shape[1] == w_type.shape[1]` is commented out in the source (lines
61-62, "Need to consider the case that group count > 1"), so no channel
compatibility is checked.  `true` means the check passes. -/
def convCheckTypeForward (inTypes : List TypeInfo) : Bool :=
  decide (2 ≤ inTypes.length) && decide (inTypes.length ≤ 3) &&
  (match inTypes with
   | xT :: wT :: rest =>
     (xT.dtype.kind == 'f') && (wT.dtype.kind == 'f') &&
     (xT.shape.length == 4) && (wT.shape.length == 4) &&
     (match rest with
      | [bT] =>
        (bT.dtype == xT.dtype) && (bT.shape.length == 1) &&
        (bT.shape.headD 0 == wT.shape.headD 0)
      | _ => true)
   | _ => false)

/-- The geometry attributes a `Convolution2DFunction` instance stores in
`__init__` (convolution_2d.py lines 31-48). -/
structure Conv2DFunctionState where
  sy : ℕ
  sx : ℕ
  ph : ℕ
  pw : ℕ
  cover_all : Bool
  group : ℕ
  dy : ℕ
  dx : ℕ

/-- The attributes a `Convolution2DGradW` instance stores (convolution_2d.py
lines 264-277): kernel extent and dtype read from the weight node, geometry
copied from the convolution instance. -/
structure Conv2DGradWState where
  kh : ℕ
  kw : ℕ
  sy : ℕ
  sx : ℕ
  ph : ℕ
  pw : ℕ
  dy : ℕ
  dx : ℕ
  cover_all : Bool
  W_dtype : DType
  group : ℕ

/-- Translation of `Convolution2DGradW.__init__` (convolution_2d.py lines
266-277): `W_node = conv2d.inputs[1]`; `kh, kw = W_node.shape[2:]`; stride,
padding, dilation, cover_all and group are copied from the convolution
instance; `W_dtype = W_node.dtype`.  The weight node's shape and dtype are
passed explicitly. -/
def mkGradW (c : Conv2DFunctionState) (Wshape : ℕ × ℕ × ℕ × ℕ)
    (Wdtype : DType) : Conv2DGradWState :=
  { kh := Wshape.2.2.1, kw := Wshape.2.2.2
    sy := c.sy, sx := c.sx, ph := c.ph, pw := c.pw
    dy := c.dy, dx := c.dx, cover_all := c.cover_all
    W_dtype := Wdtype, group := c.group }

/-- A tensor together with its element type.  Element values are idealized as
exact rationals; a dtype cast (`astype`) retags the element type and is the
identity on the idealized values. -/
structure TypedTensor4 where
  val : Tensor4
  dtype : DType

/-- numpy `astype`: the values are converted to the requested element type;
in the idealized rational model only the dtype tag changes. -/
def astype (t : TypedTensor4) (d : DType) : TypedTensor4 :=
  ⟨t.val, d⟩

/-- Translation of `Convolution2DGradW._forward_cpu_core` (convolution_2d.py
lines 296-302): `col = im2col(x, kh, kw, ...)`;
`gW = tensordot(gy, col, ((0,2,3),(0,4,5))).astype(self.W_dtype)` — the
contraction runs over the batch and output-spatial axes, yielding shape
`(out_c, C, kh, kw)` in the promoted dtype of `gy` and `col`, then the
result is cast to the recorded weight dtype. -/
def gradWForwardCpuCore (s : Conv2DGradWState) (x gy : TypedTensor4) :
    TypedTensor4 :=
  let raw : Tensor4 :=
    { n1 := gy.val.n2, n2 := x.val.n2, n3 := s.kh, n4 := s.kw
      data := fun o c j i =>
        ∑ n ∈ Finset.range gy.val.n1, ∑ oh ∈ Finset.range gy.val.n3,
          ∑ ow ∈ Finset.range gy.val.n4,
            gy.val.data n o oh ow *
              im2col x.val s.sy s.sx s.ph s.pw s.dy s.dx n c j i oh ow }
  astype ⟨raw, promoteTypes gy.dtype x.dtype⟩ s.W_dtype

/-- Translation of `Convolution2DGradW._forward_grouped_convolution`
(convolution_2d.py lines 379-413): x and gy are regrouped along their channel
axes, `_forward_cpu_core` runs per group, and the per-group results (each
already cast to `W_dtype`) are stacked and reshaped to `(oC, iCg, kH, kW)`;
stacking preserves the common dtype of the parts. -/
def gradWForwardGrouped (s : Conv2DGradWState) (x gy : TypedTensor4) :
    TypedTensor4 :=
  let iCg := x.val.n2 / s.group
  let oCg := gy.val.n2 / s.group
  let sub := fun (g : ℕ) =>
    gradWForwardCpuCore s
      ⟨⟨x.val.n1, iCg, x.val.n3, x.val.n4,
        fun n c h w => x.val.data n (g * iCg + c) h w⟩, x.dtype⟩
      ⟨⟨gy.val.n1, oCg, gy.val.n3, gy.val.n4,
        fun n o oh ow => gy.val.data n (g * oCg + o) oh ow⟩, gy.dtype⟩
  { val := { n1 := gy.val.n2, n2 := iCg, n3 := s.kh, n4 := s.kw
             data := fun o c j i => (sub (o / oCg)).val.data (o % oCg) c j i }
    dtype := (sub 0).dtype }

/-- Translation of the dispatch in `Convolution2DGradW.forward_cpu`
(convolution_2d.py lines 279-294): the grouped decomposition when
`group > 1`, the direct core otherwise. -/
def gradWForwardCpu (s : Conv2DGradWState) (x gy : TypedTensor4) :
    TypedTensor4 :=
  if 1 < s.group then gradWForwardGrouped s x gy else gradWForwardCpuCore s x gy

/-- Tags naming the tensors available inside `Convolution2DGradW.backward`:
the retained forward inputs x and gy, and the incoming second-order
gradient ggW. -/
inductive ArgTag where
  | x
  | gy
  | ggW
  deriving DecidableEq

/-- A call the backward pass issues to a companion operator, together with
every argument the source passes: `deconv2d` is
`chainer.functions.deconvolution_2d(a, b, stride, pad, outsize, group,
dilate)` and `conv2d` is `convolution_2d(a, b, stride, pad, cover_all,
group, dilate)`. -/
inductive GradCall where
  | deconv2d (a b : ArgTag) (sy sx ph pw : ℕ) (outsize : ℕ × ℕ)
      (group dy dx : ℕ)
  | conv2d (a b : ArgTag) (sy sx ph pw : ℕ) (cover_all : Bool)
      (group dy dx : ℕ)
  deriving DecidableEq

/-- Translation of `Convolution2DGradW.backward` (convolution_2d.py lines
415-432): when index 0 is requested, gx is produced by
`deconvolution_2d(gy, ggW, stride=(sy,sx), pad=(ph,pw), outsize=x.shape[2:],
group=group, dilate=(dy,dx))`; when index 1 is requested, ggy is produced by
`convolution_2d(x, ggW, stride=(sy,sx), pad=(ph,pw), cover_all=cover_all,
group=group, dilate=(dy,dx))`; results are appended in index order. -/
def gradWBackward (s : Conv2DGradWState) (xshape : ℕ × ℕ × ℕ × ℕ)
    (indexes : List ℕ) : List GradCall :=
  (if 0 ∈ indexes then
    [GradCall.deconv2d ArgTag.gy ArgTag.ggW s.sy s.sx s.ph s.pw
      (xshape.2.2.1, xshape.2.2.2) s.group s.dy s.dx]
   else []) ++
  (if 1 ∈ indexes then
    [GradCall.conv2d ArgTag.x ArgTag.ggW s.sy s.sx s.ph s.pw s.cover_all
      s.group s.dy s.dx]
   else [])

/-! ### Batch renormalization

`BatchRenormalizationFunction` reduces over every axis except the channel
axes (`axis = (0,) + tuple(range(head_ndim, x.ndim))`).  The embedding
indexes x as a 3-D array `(n, c, s)` with `n < N` the batch axis, `c < C`
the flattened channel axes (gamma's shape), and `s < S` the flattened
trailing spatial axes; this covers every rank the source accepts. -/

/-- numpy `x.mean(axis=(0, 2, ...))` in the `(N, C, S)` indexing: the
per-channel mean over the `N * S` reduced elements. -/
def batchMean (N S : ℕ) (x : ℕ → ℕ → ℕ → ℚ) (c : ℕ) : ℚ :=
  (∑ n ∈ Finset.range N, ∑ s ∈ Finset.range S, x n c s) / (N * S)

/-- numpy `x.var(axis=(0, 2, ...))`: the biased per-channel variance, the
mean of squared deviations over the `N * S` reduced elements. -/
def batchVar (N S : ℕ) (x : ℕ → ℕ → ℕ → ℚ) (c : ℕ) : ℚ :=
  (∑ n ∈ Finset.range N, ∑ s ∈ Finset.range S,
    (x n c s - batchMean N S x c) ^ 2) / (N * S)

/-- The running-statistics storage after a training-mode forward.
`callerMean`/`callerVar` are the contents of the caller-owned arrays that
were passed to the constructor; `selfMean`/`selfVar` are the contents of the
arrays referenced by the instance attributes `self.running_mean` /
`self.running_var` after the call. -/
structure BRNRunningState where
  callerMean : ℕ → ℚ
  callerVar : ℕ → ℚ
  selfMean : ℕ → ℚ
  selfVar : ℕ → ℚ

/-- Translation of the running-statistics part of
`BatchRenormalizationFunction.forward` in training mode with caller-supplied
running statistics (batch_renormalization.py lines 89-96, 120-127 and
180-196).  Lines 95-96 rebind the attributes to `xp.array(self.running_mean)`
/ `xp.array(self.running_var)`; `numpy.array` copies by default, so the
in-place updates below act on fresh arrays and the caller's arrays keep
their old contents.  Line 121-124 computes `mean = x.mean(axis)`,
`var = x.var(axis)` and then `var += self.eps` in place, so the later
running-variance update reads the eps-offset variance.  Lines 185-195 then
perform `running_mean = running_mean*decay + mean*(1-decay)` and
`running_var = running_var*decay + var*((1-decay)*adjust)` with
`m = x.size // gamma.size` and `adjust = m / max(m - 1, 1)`. -/
def brnForwardRunningUpdate (N C S : ℕ) (x : ℕ → ℕ → ℕ → ℚ)
    (eps decay : ℚ) (runningMean runningVar : ℕ → ℚ) : BRNRunningState :=
  let mean := batchMean N S x
  let varEps := fun c => batchVar N S x c + eps
  let m : ℕ := N * C * S / C
  let adjust : ℚ := (m : ℚ) / max ((m : ℚ) - 1) 1
  { callerMean := runningMean
    callerVar := runningVar
    selfMean := fun c => runningMean c * decay + mean c * (1 - decay)
    selfVar := fun c => runningVar c * decay + varEps c * ((1 - decay) * adjust) }

/-- The five gradients the fixed-statistics backward returns, in the order
of the forward inputs `(x, gamma, beta, mean, var)`:
`return gx, ggamma, gbeta, gmean, gvar`. -/
structure BRNBackward5Out where
  gx : ℕ → ℕ → ℕ → ℚ
  ggamma : ℕ → ℚ
  gbeta : ℕ → ℚ
  gmean : ℕ → ℚ
  gvar : ℕ → ℚ

/-- Translation of `_xhat` (batch_renormalization.py lines 24-27):
`(x - mean[expander]) / std[expander]`. -/
def xhatOf (x : ℕ → ℕ → ℕ → ℚ) (mean std : ℕ → ℚ) : ℕ → ℕ → ℕ → ℚ :=
  fun n c s => (x n c s - mean c) / std c

/-- Translation of the five-input branch of
`BatchRenormalizationFunction.backward` (batch_renormalization.py lines
207-220): `mean = inputs[3]`, `var = inputs[4]`,
`std = xp.sqrt(var)` (note: no eps is added here), `gs = gamma / std`,
`gbeta = gy.sum(axis)`, `x_hat = _xhat(x, mean, std)`,
`ggamma = (gy * x_hat).sum(axis)`, `gmean = -gs * gbeta`,
`gvar = -0.5 * gamma / var * ggamma`, `gx = gs[expander] * gy`.  Because ℚ
has no square root, `std` is an explicit argument; theorems constrain it by
`0 ≤ std c` and `std c * std c = var c`, the characterization of
`xp.sqrt(var)`. -/
def brnBackward5 (N S : ℕ) (x : ℕ → ℕ → ℕ → ℚ) (gamma : ℕ → ℚ)
    (gy : ℕ → ℕ → ℕ → ℚ) (mean var std : ℕ → ℚ) : BRNBackward5Out :=
  let gs := fun c => gamma c / std c
  let gbeta := fun c => ∑ n ∈ Finset.range N, ∑ s ∈ Finset.range S, gy n c s
  let x_hat := xhatOf x mean std
  let ggamma := fun c =>
    ∑ n ∈ Finset.range N, ∑ s ∈ Finset.range S, gy n c s * x_hat n c s
  { gx := fun n c s => gs c * gy n c s
    ggamma := ggamma
    gbeta := gbeta
    gmean := fun c => -gs c * gbeta c
    gvar := fun c => -(1 / 2 : ℚ) * gamma c / var c * ggamma c }

/-- The claim's reading of the five-input backward, written from the words of
claim C4: identical formulas except that std is "recomputed from the supplied
var+eps", so `stdE` is characterized by `stdE c * stdE c = var c + eps`. -/
def brnBackward5Claim (N S : ℕ) (x : ℕ → ℕ → ℕ → ℚ) (gamma : ℕ → ℚ)
    (gy : ℕ → ℕ → ℕ → ℚ) (mean var : ℕ → ℚ) (eps : ℚ) (stdE : ℕ → ℚ) :
    BRNBackward5Out :=
  let gs := fun c => gamma c / stdE c
  let gbeta := fun c => ∑ n ∈ Finset.range N, ∑ s ∈ Finset.range S, gy n c s
  let x_hat := xhatOf x mean stdE
  let ggamma := fun c =>
    ∑ n ∈ Finset.range N, ∑ s ∈ Finset.range S, gy n c s * x_hat n c s
  { gx := fun n c s => gs c * gy n c s
    ggamma := ggamma
    gbeta := gbeta
    gmean := fun c => -gs c * gbeta c
    gvar := fun c => -(1 / 2 : ℚ) * gamma c / var c * ggamma c }

/-- The amended reading of claim C4: the same formulas with std recomputed
from the supplied var alone (no eps offset), exactly as the source does;
`stdA` is characterized by `stdA c * stdA c = var c`.  Written from the
amended claim's words, to be compared with the source translation
`brnBackward5`. -/
def brnBackward5Amended (N S : ℕ) (x : ℕ → ℕ → ℕ → ℚ) (gamma : ℕ → ℚ)
    (gy : ℕ → ℕ → ℕ → ℚ) (mean var : ℕ → ℚ) (stdA : ℕ → ℚ) :
    BRNBackward5Out :=
  { gx := fun n c s => gamma c / stdA c * gy n c s
    ggamma := fun c =>
      ∑ n ∈ Finset.range N, ∑ s ∈ Finset.range S,
        gy n c s * ((x n c s - mean c) / stdA c)
    gbeta := fun c => ∑ n ∈ Finset.range N, ∑ s ∈ Finset.range S, gy n c s
    gmean := fun c =>
      -(gamma c / stdA c) *
        ∑ n ∈ Finset.range N, ∑ s ∈ Finset.range S, gy n c s
    gvar := fun c =>
      -(1 / 2 : ℚ) * gamma c / var c *
        ∑ n ∈ Finset.range N, ∑ s ∈ Finset.range S,
          gy n c s * ((x n c s - mean c) / stdA c) }

/-- The three gradients the training-mode backward returns, in the order of
the forward inputs `(x, gamma, beta)`: `return gx, ggamma, gbeta`. -/
structure BRNBackward3Out where
  gx : ℕ → ℕ → ℕ → ℚ
  ggamma : ℕ → ℚ
  gbeta : ℕ → ℚ

/-- Translation of the training-mode (three-input) branch of
`BatchRenormalizationFunction.backward` (batch_renormalization.py lines
199-206 and 222-244): `m = gamma.dtype.type(x.size // gamma.size)`,
`gbeta = gy.sum(axis)`, `ggamma = (gy * x_hat_renorm).sum(axis)`,
`gsigma_batch = (gy * x_hat).sum(axis)`,
`scale = (r * gamma / std)[expander]`,
`gx = scale * (gy - (x_hat * gsigma_batch[expander] + gbeta[expander]) / m)`.
The retained intermediates x_hat, x_hat_renorm, std and r are arguments. -/
def brnBackward3 (N C S : ℕ) (gamma : ℕ → ℚ) (gy : ℕ → ℕ → ℕ → ℚ)
    (x_hat x_hat_renorm : ℕ → ℕ → ℕ → ℚ) (std r : ℕ → ℚ) :
    BRNBackward3Out :=
  let m : ℚ := ((N * C * S / C : ℕ) : ℚ)
  let gbeta := fun c => ∑ n ∈ Finset.range N, ∑ s ∈ Finset.range S, gy n c s
  let ggamma := fun c =>
    ∑ n ∈ Finset.range N, ∑ s ∈ Finset.range S, gy n c s * x_hat_renorm n c s
  let gsigma_batch := fun c =>
    ∑ n ∈ Finset.range N, ∑ s ∈ Finset.range S, gy n c s * x_hat n c s
  { gx := fun n c s =>
      r c * gamma c / std c *
        (gy n c s - (x_hat n c s * gsigma_batch c + gbeta c) / m)
    ggamma := ggamma
    gbeta := gbeta }

/-- The attributes `BatchRenormalizationFunction.__init__` records when it
succeeds (batch_renormalization.py lines 32-58). -/
structure BRNFunctionInit where
  eps : ℚ
  decay : ℚ
  rmax : ℚ
  dmax : ℚ
  train : Bool
  useCudnn : Bool

/-- Translation of the eps validation in
`BatchRenormalizationFunction.__init__` (batch_renormalization.py lines
47-56): when cuDNN is enabled and requested (`cuda.cudnn_enabled and
use_cudnn`) and `eps < 1e-5`, a `RuntimeError` is raised before any forward
computation; otherwise the attributes are recorded.  The float literal
`1e-5` is idealized as the rational `1/100000`. -/
def brnInit (cudnnEnabled : Bool) (eps : ℚ) (train : Bool) (decay : ℚ)
    (useCudnn : Bool) (rmax dmax : ℚ) : Except String BRNFunctionInit :=
  if cudnnEnabled && useCudnn && decide (eps < 1 / 100000) then
    Except.error "cuDNN does not allow an eps value less than 1e-5."
  else
    Except.ok ⟨eps, decay, rmax, dmax, train, useCudnn⟩

/-- The bias contribution to one output channel: the bias entry when a bias
is present, zero otherwise. -/
def biasAt (b : Option (ℕ → ℚ)) (co : ℕ) : ℚ :=
  match b with
  | none => 0
  | some bv => bv co

/-- The input of the spec's end-to-end convolution example: x of shape
`(10, 3, 30, 40)`.  Only the shape matters to the example. -/
def exX : Tensor4 := ⟨10, 3, 30, 40, fun _ _ _ _ => 0⟩

/-- The weight of the spec's end-to-end convolution example: W of shape
`(1, 3, 10, 10)`. -/
def exW : Tensor4 := ⟨1, 3, 10, 10, fun _ _ _ _ => 0⟩

/-- The bias of the spec's end-to-end convolution example: b of shape
`(1,)`. -/
def exB : ℕ → ℚ := fun _ => 0

/-- The training-mode backward formulas exactly as claim C8 words them, with
`m` the per-channel reduction count `N * S` and `gsigma_batch = sum(gy *
x_hat)` inlined.  Written from the claim, to be compared with the source
translation `brnBackward3`. -/
def brnBackward3Spec (N S : ℕ) (gamma : ℕ → ℚ) (gy : ℕ → ℕ → ℕ → ℚ)
    (x_hat x_hat_renorm : ℕ → ℕ → ℕ → ℚ) (std r : ℕ → ℚ) :
    BRNBackward3Out :=
  { gx := fun n c s =>
      r c * gamma c / std c *
        (gy n c s -
          (x_hat n c s *
              (∑ n' ∈ Finset.range N, ∑ s' ∈ Finset.range S,
                gy n' c s' * x_hat n' c s') +
            ∑ n' ∈ Finset.range N, ∑ s' ∈ Finset.range S, gy n' c s') /
            ((N * S : ℕ) : ℚ))
    ggamma := fun c =>
      ∑ n' ∈ Finset.range N, ∑ s' ∈ Finset.range S,
        gy n' c s' * x_hat_renorm n' c s'
    gbeta := fun c =>
      ∑ n' ∈ Finset.range N, ∑ s' ∈ Finset.range S, gy n' c s' }

/-- A two-channel, one-pixel input for the grouped-convolution witness. -/
def gx6 : Tensor4 := ⟨1, 2, 1, 1, fun _ c _ _ => if c = 0 then 3 else 5⟩

/-- A two-output-channel, one-input-channel-per-group 1x1 weight for the
grouped-convolution witness (group count 2). -/
def gW6 : Tensor4 := ⟨2, 1, 1, 1, fun o _ _ _ => if o = 0 then 2 else 7⟩

/-- The all-zero per-channel array, used as initial running statistics in
the concrete batch-renormalization examples. -/
def zeroChan : ℕ → ℚ := fun _ => 0

/-- The all-one per-channel array. -/
def oneChan : ℕ → ℚ := fun _ => 1

/-- The all-one 3-D input. -/
def one3 : ℕ → ℕ → ℕ → ℚ := fun _ _ _ => 1

/-- A batch of two scalars 0 and 2 for one channel: batch mean 1, biased
batch variance 1. -/
def xC2 : ℕ → ℕ → ℕ → ℚ := fun n _ _ => if n = 0 then 0 else 2

/-- The constant supplied variance 4 of the fixed-statistics backward
example. -/
def varC4 : ℕ → ℚ := fun _ => 4

/-- `sqrt(var) = 2` for the supplied variance 4: the std the source's
fixed-statistics backward computes. -/
def stdC4 : ℕ → ℚ := fun _ => 2

/-- `sqrt(var + eps) = 3` for the supplied variance 4 and eps 5: the std
claim C4 asserts. -/
def stdEC4 : ℕ → ℚ := fun _ => 3

end ChainerSpec

namespace ChainerSpec

/-- For a positive stride, the last base window falls short of the padded
boundary exactly when the stride does not divide
`size + 2*p - d*(k-1) - 1`. -/
theorem fdiv_mul_lt_iff_not_dvd (a s : ℤ) (hs : 0 < s) :
    a.fdiv s * s < a ↔ ¬ s ∣ a := by
  rw [Int.fdiv_eq_ediv _ hs.le, mul_comm]
  have h := Int.ediv_add_emod a s
  have h1 : 0 ≤ a % s := Int.emod_nonneg a hs.ne'
  constructor
  · intro hlt hdvd
    have hz : a % s = 0 := Int.emod_eq_zero_of_dvd hdvd
    rw [hz, add_zero] at h
    exact absurd h (by linarith)
  · intro hnd
    have hz : a % s ≠ 0 := fun hz => hnd (Int.dvd_of_emod_eq_zero hz)
    have hpos : 0 < a % s := lt_of_le_of_ne h1 (Ne.symm hz)
    linarith

/-- With a positive stride, the cover_all output size is the base size plus
one exactly when the stride does not divide `size + 2*p - d*(k-1) - 1`. -/
theorem get_conv_outsize_cover_all (size k s p d : ℤ) (hs : 0 < s) :
    get_conv_outsize size k s p d true =
      specConvOutSize size k s p d +
        if s ∣ (size + 2 * p - d * (k - 1) - 1) then 0 else 1 := by
  unfold get_conv_outsize specConvOutSize
  set a := size + 2 * p - d * (k - 1) - 1 with ha
  have hsub : a.fdiv s + 1 - 1 = a.fdiv s := by ring
  have hsum : size + 2 * p = a + (d * (k - 1) + 1) := by rw [ha]; ring
  have hcond : (a.fdiv s + 1 - 1) * s + (d * (k - 1) + 1) < size + 2 * p ↔
      ¬ s ∣ a := by
    rw [hsub, hsum]
    exact (add_lt_add_iff_right _).trans (fdiv_mul_lt_iff_not_dvd a s hs)
  by_cases hd : s ∣ a
  · rw [if_pos rfl, if_neg (fun hlt => (hcond.mp hlt) hd), if_pos hd, add_zero]
  · rw [if_pos rfl, if_pos (hcond.mpr hd), if_neg hd]

/-- C1: for every input, weight, optional bias, positive strides, padding and
dilation with group_count = 1, the convolution forward output shape is
`(N, Cout, out_h, out_w)` with `out_h = floor((H + 2*ph - dy*(kh-1) - 1)/sy)
+ 1` (and symmetrically for the width); with cover_all set each spatial
dimension gains one extra unit exactly when the stride does not divide
`H + 2*ph - dy*(kh-1) - 1` (the computed size does not reach the padded
boundary); and on the spec's end-to-end example the output shape is
`(10, 1, 7, 6)`, becoming `(10, 1, 7, 7)` with cover_all. -/
theorem C1_conv_forward_output_shape (x W : Tensor4) (b : Option (ℕ → ℚ))
    (sy sx ph pw dy dx : ℕ) (hsy : 0 < sy) (hsx : 0 < sx) :
    ((forwardCpuCore x W b sy sx ph pw dy dx false).n1 = x.n1 ∧
     (forwardCpuCore x W b sy sx ph pw dy dx false).n2 = W.n1 ∧
     (forwardCpuCore x W b sy sx ph pw dy dx false).n3 =
       (specConvOutSize x.n3 W.n3 sy ph dy).toNat ∧
     (forwardCpuCore x W b sy sx ph pw dy dx false).n4 =
       (specConvOutSize x.n4 W.n4 sx pw dx).toNat) ∧
    ((forwardCpuCore x W b sy sx ph pw dy dx true).n3 =
       (specConvOutSize x.n3 W.n3 sy ph dy +
         if (sy : ℤ) ∣
             ((x.n3 : ℤ) + 2 * (ph : ℤ) - (dy : ℤ) * ((W.n3 : ℤ) - 1) - 1)
         then 0 else 1).toNat ∧
     (forwardCpuCore x W b sy sx ph pw dy dx true).n4 =
       (specConvOutSize x.n4 W.n4 sx pw dx +
         if (sx : ℤ) ∣
             ((x.n4 : ℤ) + 2 * (pw : ℤ) - (dx : ℤ) * ((W.n4 : ℤ) - 1) - 1)
         then 0 else 1).toNat) ∧
    (((forwardCpuCore exX exW (some exB) 5 7 5 5 1 1 false).n1 = 10 ∧
      (forwardCpuCore exX exW (some exB) 5 7 5 5 1 1 false).n2 = 1 ∧
      (forwardCpuCore exX exW (some exB) 5 7 5 5 1 1 false).n3 = 7 ∧
      (forwardCpuCore exX exW (some exB) 5 7 5 5 1 1 false).n4 = 6) ∧
     ((forwardCpuCore exX exW (some exB) 5 7 5 5 1 1 true).n3 = 7 ∧
      (forwardCpuCore exX exW (some exB) 5 7 5 5 1 1 true).n4 = 7)) := by
  have hsyZ : (0 : ℤ) < (sy : ℤ) := by exact_mod_cast hsy
  have hsxZ : (0 : ℤ) < (sx : ℤ) := by exact_mod_cast hsx
  refine ⟨⟨rfl, rfl, rfl, rfl⟩, ⟨?_, ?_⟩, by decide⟩
  · exact congrArg Int.toNat
      (get_conv_outsize_cover_all (x.n3 : ℤ) (W.n3 : ℤ) sy ph dy hsyZ)
  · exact congrArg Int.toNat
      (get_conv_outsize_cover_all (x.n4 : ℤ) (W.n4 : ℤ) sx pw dx hsxZ)

/-- Witness for C1 at stride (5, 7): the hypotheses hold and the example
output shape follows. -/
theorem C1_witness :
    (forwardCpuCore exX exW (some exB) 5 7 5 5 1 1 false).n4 = 6 ∧
    (forwardCpuCore exX exW (some exB) 5 7 5 5 1 1 true).n4 = 7 :=
  ⟨(C1_conv_forward_output_shape exX exW (some exB) 5 7 5 5 1 1
      (by norm_num) (by norm_num)).2.2.1.2.2.2,
   (C1_conv_forward_output_shape exX exW (some exB) 5 7 5 5 1 1
      (by norm_num) (by norm_num)).2.2.2.2⟩

/-- A sum over `G * k` indices collapses to the block
`[g*k, g*k + k)` when the summand vanishes outside that block. -/
theorem sum_range_block {M : Type} [AddCommMonoid M] {G k g : ℕ}
    (hg : g < G) (f : ℕ → M)
    (h0 : ∀ ci, (ci < g * k ∨ g * k + k ≤ ci) → f ci = 0) :
    ∑ ci ∈ Finset.range (G * k), f ci =
      ∑ c ∈ Finset.range k, f (g * k + c) := by
  have hsub : Finset.Ico (g * k) (g * k + k) ⊆ Finset.range (G * k) := by
    intro i hi
    rw [Finset.mem_Ico] at hi
    rw [Finset.mem_range]
    have h1 : g * k + k = (g + 1) * k := by ring
    have h2 : (g + 1) * k ≤ G * k := Nat.mul_le_mul_right k hg
    omega
  have hzero : ∀ i ∈ Finset.range (G * k),
      i ∉ Finset.Ico (g * k) (g * k + k) → f i = 0 := by
    intro i _ hni
    rw [Finset.mem_Ico] at hni
    exact h0 i (by omega)
  rw [← Finset.sum_subset hsub hzero, Finset.sum_Ico_eq_sum_range]
  have hk : g * k + k - g * k = k := by omega
  rw [hk]

/-- C6: for channel counts divisible by the group count, grouped convolution
forward equals the ungrouped convolution with the block-diagonal weight
built by zero-padding each group's filter into the full input-channel width,
with group-major output channel ordering: the shapes agree and every entry
within the output channel range agrees exactly. -/
theorem C6_grouped_matches_blockdiag (x W : Tensor4) (b : Option (ℕ → ℚ))
    (G sy sx ph pw dy dx : ℕ) (ca : Bool) (hG : 0 < G)
    (hx : x.n2 = G * W.n2) (hoc : G ∣ W.n1) :
    ((forwardGroupedConvolution x W b G sy sx ph pw dy dx ca).n1 =
        (forwardCpuCore x (blockDiagWeight W G) b sy sx ph pw dy dx ca).n1 ∧
      (forwardGroupedConvolution x W b G sy sx ph pw dy dx ca).n2 =
        (forwardCpuCore x (blockDiagWeight W G) b sy sx ph pw dy dx ca).n2 ∧
      (forwardGroupedConvolution x W b G sy sx ph pw dy dx ca).n3 =
        (forwardCpuCore x (blockDiagWeight W G) b sy sx ph pw dy dx ca).n3 ∧
      (forwardGroupedConvolution x W b G sy sx ph pw dy dx ca).n4 =
        (forwardCpuCore x (blockDiagWeight W G) b sy sx ph pw dy dx ca).n4) ∧
    ∀ n oc oh ow, oc < W.n1 →
      (forwardGroupedConvolution x W b G sy sx ph pw dy dx ca).data n oc oh ow =
        (forwardCpuCore x (blockDiagWeight W G) b sy sx ph pw dy dx ca).data
          n oc oh ow := by
  refine ⟨⟨rfl, rfl, rfl, rfl⟩, ?_⟩
  intro n oc oh ow hocLt
  have hiCg : x.n2 / G = W.n2 := by
    rw [hx]; exact Nat.mul_div_cancel_left _ hG
  have hW1 : W.n1 = G * (W.n1 / G) := by
    rw [Nat.mul_comm]; exact (Nat.div_mul_cancel hoc).symm
  have hoCgpos : 0 < W.n1 / G := by
    rcases Nat.eq_zero_or_pos (W.n1 / G) with h | h
    · rw [h, Nat.mul_zero] at hW1; omega
    · exact h
  have hg : oc / (W.n1 / G) < G :=
    (Nat.div_lt_iff_lt_mul hoCgpos).mpr (hW1 ▸ hocLt)
  have hoc_eq : oc / (W.n1 / G) * (W.n1 / G) + oc % (W.n1 / G) = oc :=
    Nat.div_add_mod' oc (W.n1 / G)
  have hRHS :
      (forwardCpuCore x (blockDiagWeight W G) b sy sx ph pw dy dx ca).data
          n oc oh ow =
        (∑ c ∈ Finset.range W.n2, ∑ j ∈ Finset.range W.n3,
          ∑ i ∈ Finset.range W.n4,
            im2col x sy sx ph pw dy dx n (oc / (W.n1 / G) * W.n2 + c) j i oh ow *
              W.data oc c j i)
        + biasAt b oc := by
    show (∑ ci ∈ Finset.range (G * W.n2), ∑ j ∈ Finset.range W.n3,
        ∑ i ∈ Finset.range W.n4,
          im2col x sy sx ph pw dy dx n ci j i oh ow *
            (blockDiagWeight W G).data oc ci j i)
        + biasAt b oc = _
    rw [sum_range_block hg
      (fun ci => ∑ j ∈ Finset.range W.n3, ∑ i ∈ Finset.range W.n4,
        im2col x sy sx ph pw dy dx n ci j i oh ow *
          (blockDiagWeight W G).data oc ci j i)
      (by
        intro ci hci
        have hcond : ¬ (oc / (W.n1 / G) * W.n2 ≤ ci ∧
            ci < oc / (W.n1 / G) * W.n2 + W.n2) := by omega
        simp only [blockDiagWeight, if_neg hcond, mul_zero,
          Finset.sum_const_zero])]
    refine congrArg (· + _) (Finset.sum_congr rfl fun c hc => ?_)
    rw [Finset.mem_range] at hc
    refine Finset.sum_congr rfl fun j _ => Finset.sum_congr rfl fun i _ => ?_
    have hcond : oc / (W.n1 / G) * W.n2 ≤ oc / (W.n1 / G) * W.n2 + c ∧
        oc / (W.n1 / G) * W.n2 + c < oc / (W.n1 / G) * W.n2 + W.n2 := by omega
    have hsub : oc / (W.n1 / G) * W.n2 + c - oc / (W.n1 / G) * W.n2 = c := by
      omega
    simp only [blockDiagWeight, if_pos hcond, hsub]
  have hLHS :
      (forwardGroupedConvolution x W b G sy sx ph pw dy dx ca).data n oc oh ow =
        (∑ c ∈ Finset.range W.n2, ∑ j ∈ Finset.range W.n3,
          ∑ i ∈ Finset.range W.n4,
            im2col x sy sx ph pw dy dx n (oc / (W.n1 / G) * W.n2 + c) j i oh ow *
              W.data oc c j i)
        + biasAt b oc := by
    show (∑ c ∈ Finset.range (x.n2 / G), ∑ j ∈ Finset.range W.n3,
        ∑ i ∈ Finset.range W.n4,
          im2col x sy sx ph pw dy dx n (oc / (W.n1 / G) * (x.n2 / G) + c) j i oh ow *
            W.data (oc / (W.n1 / G) * (W.n1 / G) + oc % (W.n1 / G)) c j i)
        + biasAt (b.map (fun bv o => bv (oc / (W.n1 / G) * (W.n1 / G) + o)))
            (oc % (W.n1 / G)) = _
    cases b with
    | none => simp only [Option.map_none', hiCg, hoc_eq, biasAt]
    | some bv => simp only [Option.map_some', hiCg, hoc_eq, biasAt]
  exact hLHS.trans hRHS.symm

/-- Witness for C6: a concrete two-group 1x1 convolution where the grouped
forward and the block-diagonal ungrouped forward agree on output channel 1. -/
theorem C6_witness :
    (forwardGroupedConvolution gx6 gW6 none 2 1 1 0 0 1 1 false).data 0 1 0 0 =
      (forwardCpuCore gx6 (blockDiagWeight gW6 2) none 1 1 0 0 1 1
        false).data 0 1 0 0 :=
  (C6_grouped_matches_blockdiag gx6 gW6 none 2 1 1 0 0 1 1 false
    (by decide) (by decide) (by decide)).2 0 1 0 0 (by decide)

/-- C5: the backward of the weight-gradient operator built from a
convolution instance delegates, when index 0 is requested, to the
transposed-convolution companion applied to (gy, ggW) with the
convolution's stride, padding, dilation and group and outsize fixed to x's
spatial shape; and, when index 1 is requested, to a forward convolution of
(x, ggW) with the same geometry including cover_all. -/
theorem C5_gradW_double_backward (c : Conv2DFunctionState)
    (Wshape : ℕ × ℕ × ℕ × ℕ) (Wdtype : DType) (xshape : ℕ × ℕ × ℕ × ℕ)
    (indexes : List ℕ) :
    (0 ∈ indexes →
      GradCall.deconv2d ArgTag.gy ArgTag.ggW c.sy c.sx c.ph c.pw
          (xshape.2.2.1, xshape.2.2.2) c.group c.dy c.dx ∈
        gradWBackward (mkGradW c Wshape Wdtype) xshape indexes) ∧
    (1 ∈ indexes →
      GradCall.conv2d ArgTag.x ArgTag.ggW c.sy c.sx c.ph c.pw c.cover_all
          c.group c.dy c.dx ∈
        gradWBackward (mkGradW c Wshape Wdtype) xshape indexes) := by
  constructor
  · intro h0
    simp [gradWBackward, mkGradW, h0]
  · intro h1
    simp [gradWBackward, mkGradW, h1]

/-- Witness for C5: with both gradients requested, the deconvolution call
with the convolution's geometry appears in the backward's output. -/
theorem C5_witness :
    GradCall.deconv2d ArgTag.gy ArgTag.ggW 2 3 1 1 (7, 9) 1 1 1 ∈
      gradWBackward
        (mkGradW ⟨2, 3, 1, 1, false, 1, 1, 1⟩ (4, 5, 6, 6) DType.float32)
        (8, 3, 7, 9) [0, 1] :=
  (C5_gradW_double_backward ⟨2, 3, 1, 1, false, 1, 1, 1⟩ (4, 5, 6, 6)
    DType.float32 (8, 3, 7, 9) [0, 1]).1 (by decide)

/-- Counterexample for C7: the structural type check accepts an input pair
whose channel count (x.shape[1] = 3) differs from the weight's second
dimension (W.shape[1] = 2) even with group_count = 1, because the channel
comparison is commented out in the source; the claimed synchronous rejection
does not happen. -/
theorem C7_counterexample :
    convCheckTypeForward
        [⟨DType.float32, [10, 3, 30, 40]⟩, ⟨DType.float32, [1, 2, 10, 10]⟩] =
      true ∧
    [10, 3, 30, 40].getD 1 0 ≠ [1, 2, 10, 10].getD 1 0 := by
  decide

/-- C7 amended: `check_type_forward` does not compare x's channel count with
W's second dimension (the check is commented out in the source to allow
group counts above one); any two 4-D floating inputs pass the structural
precondition check regardless of channel mismatch, and a mismatch can only
surface later, inside the computation. -/
theorem C7_amended_check_accepts (xT wT : TypeInfo)
    (hx : xT.dtype.kind = 'f') (hw : wT.dtype.kind = 'f')
    (hxn : xT.shape.length = 4) (hwn : wT.shape.length = 4) :
    convCheckTypeForward [xT, wT] = true := by
  simp [convCheckTypeForward, hx, hw, hxn, hwn]

/-- Witness for C7: a concrete mismatched pair (5 input channels versus 3
weight input channels) passes the check. -/
theorem C7_witness :
    convCheckTypeForward
        [⟨DType.float64, [1, 5, 2, 2]⟩, ⟨DType.float64, [4, 3, 2, 2]⟩] =
      true :=
  C7_amended_check_accepts ⟨DType.float64, [1, 5, 2, 2]⟩
    ⟨DType.float64, [4, 3, 2, 2]⟩ rfl rfl rfl rfl

/-- C9: when cuDNN is enabled and requested, constructing the batch
renormalization operator with eps below the 1e-5 floor fails with the
RuntimeError raised in `__init__`, before any forward computation or
statistics mutation can happen. -/
theorem C9_eps_floor_error (cudnnEnabled useCudnn : Bool)
    (eps decay rmax dmax : ℚ) (train : Bool)
    (h1 : cudnnEnabled = true) (h2 : useCudnn = true)
    (h3 : eps < 1 / 100000) :
    brnInit cudnnEnabled eps train decay useCudnn rmax dmax =
      Except.error "cuDNN does not allow an eps value less than 1e-5." := by
  unfold brnInit
  rw [h1, h2]
  simp only [Bool.true_and, decide_eq_true_eq, if_pos h3]

/-- Witness for C9: eps = 1/200000 with cuDNN enabled and requested is
rejected. -/
theorem C9_witness :
    brnInit true (1 / 200000) true (9 / 10) true 1 0 =
      Except.error "cuDNN does not allow an eps value less than 1e-5." :=
  C9_eps_floor_error true true (1 / 200000) (9 / 10) 1 0 true rfl rfl
    (by norm_num)

/-- C10: the weight gradient returned by the weight-gradient operator's CPU
forward always carries the element type recorded from the weight node at
construction time, whatever the element types of x and gy are at call time
(the contraction result is cast to the recorded dtype), on both the direct
and the grouped paths. -/
theorem C10_gradW_result_dtype (c : Conv2DFunctionState)
    (Wshape : ℕ × ℕ × ℕ × ℕ) (Wdtype : DType) (x gy : TypedTensor4) :
    (gradWForwardCpu (mkGradW c Wshape Wdtype) x gy).dtype = Wdtype := by
  unfold gradWForwardCpu
  split
  · rfl
  · rfl

/-- Counterexample for C2: with x = (0, 2) over one channel (batch mean 1,
biased variance 1), eps = 1/2, decay = 0 and zero initial running
statistics, the source updates the running variance with the eps-offset
variance and stores 3 = adjust * (var + eps), while the claim's formula
decay*rv + (1-decay)*adjust*var (with var eps-free) gives 2. -/
theorem C2_counterexample :
    (brnForwardRunningUpdate 2 1 1 xC2 (1 / 2) 0 zeroChan zeroChan).selfVar 0 =
      3 ∧
    0 * zeroChan 0 + (1 - 0) * ((2 : ℚ) / max ((2 : ℚ) - 1) 1) *
        batchVar 2 1 xC2 0 = 2 ∧
    (brnForwardRunningUpdate 2 1 1 xC2 (1 / 2) 0 zeroChan zeroChan).selfVar 0 ≠
      0 * zeroChan 0 + (1 - 0) * ((2 : ℚ) / max ((2 : ℚ) - 1) 1) *
        batchVar 2 1 xC2 0 := by
  norm_num [brnForwardRunningUpdate, batchVar, batchMean, xC2, zeroChan,
    max_def, Finset.sum_range_succ, Finset.sum_range_zero]

/-- C2 amended: after a training-mode forward the operator's running
statistics hold `decay*running_mean + (1-decay)*mean` and
`decay*running_var + (1-decay)*adjust*(var + eps)`, where mean and var are
the per-channel batch mean and biased batch variance, eps is added to the
variance in place before the update, and `adjust = m/max(m-1,1)` with
`m = N*S` the number of elements reduced per channel. -/
theorem C2_amended_running_update (N C S : ℕ) (x : ℕ → ℕ → ℕ → ℚ)
    (eps decay : ℚ) (rm rv : ℕ → ℚ) (hC : 0 < C) :
    ∀ ch,
      (brnForwardRunningUpdate N C S x eps decay rm rv).selfMean ch =
        decay * rm ch + (1 - decay) * batchMean N S x ch ∧
      (brnForwardRunningUpdate N C S x eps decay rm rv).selfVar ch =
        decay * rv ch +
          (1 - decay) * (((N * S : ℕ) : ℚ) / max (((N * S : ℕ) : ℚ) - 1) 1) *
            (batchVar N S x ch + eps) := by
  have hm : N * C * S / C = N * S := by
    rw [show N * C * S = C * (N * S) by ring]
    exact Nat.mul_div_cancel_left _ hC
  intro ch
  constructor
  · show rm ch * decay + batchMean N S x ch * (1 - decay) = _
    ring
  · show rv ch * decay + (batchVar N S x ch + eps) *
        ((1 - decay) *
          (((N * C * S / C : ℕ) : ℚ) /
            max (((N * C * S / C : ℕ) : ℚ) - 1) 1)) = _
    rw [hm]
    ring

/-- Witness for C2 at the concrete two-element batch: the amended running
variance value follows from the amended theorem. -/
theorem C2_witness :
    (brnForwardRunningUpdate 2 1 1 xC2 (1 / 2) 0 zeroChan zeroChan).selfVar 0 =
      0 * zeroChan 0 +
        (1 - 0) * (((2 * 1 : ℕ) : ℚ) / max (((2 * 1 : ℕ) : ℚ) - 1) 1) *
          (batchVar 2 1 xC2 0 + 1 / 2) :=
  (C2_amended_running_update 2 1 1 xC2 (1 / 2) 0 zeroChan zeroChan
    (by decide) 0).2

/-- Counterexample for C3: with decay = 0 and an all-one input the updated
running mean is 1, but after the forward the caller-supplied array still
holds its old value 0, because the source rebinds the attribute to
`xp.array(self.running_mean)` — a copy — before the in-place update; the
caller does not observe the new values in the tensors it passed in. -/
theorem C3_counterexample :
    (brnForwardRunningUpdate 1 1 1 one3 0 0 zeroChan zeroChan).callerMean 0 =
      0 ∧
    0 * zeroChan 0 + (1 - 0) * batchMean 1 1 one3 0 = 1 ∧
    (brnForwardRunningUpdate 1 1 1 one3 0 0 zeroChan zeroChan).callerMean 0 ≠
      0 * zeroChan 0 + (1 - 0) * batchMean 1 1 one3 0 := by
  norm_num [brnForwardRunningUpdate, batchMean, one3, zeroChan,
    Finset.sum_range_succ, Finset.sum_range_zero]

/-- C3 amended: the training-mode running-statistics update is applied to
private copies held in the operator's running_mean/running_var attributes
(`xp.array` copies the caller arrays before the in-place update); the
caller-supplied tensors are left unchanged, and the updated values are
observable only through the operator's attributes. -/
theorem C3_amended_caller_unchanged (N C S : ℕ) (x : ℕ → ℕ → ℕ → ℚ)
    (eps decay : ℚ) (rm rv : ℕ → ℚ) :
    (brnForwardRunningUpdate N C S x eps decay rm rv).callerMean = rm ∧
    (brnForwardRunningUpdate N C S x eps decay rm rv).callerVar = rv ∧
    ∀ ch,
      (brnForwardRunningUpdate N C S x eps decay rm rv).selfMean ch =
        rm ch * decay + batchMean N S x ch * (1 - decay) ∧
      (brnForwardRunningUpdate N C S x eps decay rm rv).selfVar ch =
        rv ch * decay + (batchVar N S x ch + eps) *
          ((1 - decay) *
            (((N * C * S / C : ℕ) : ℚ) /
              max (((N * C * S / C : ℕ) : ℚ) - 1) 1)) :=
  ⟨rfl, rfl, fun _ => ⟨rfl, rfl⟩⟩

/-- Counterexample for C4: with supplied var = 4 and eps = 5 the source's
fixed-statistics backward uses std = sqrt(var) = 2 and returns
gx = gamma/2 * gy = 1/2, while the claim's formulas with std recomputed
from var + eps = 9 (std = 3) give gx = 1/3. -/
theorem C4_counterexample :
    ((0 : ℚ) ≤ stdC4 0 ∧ stdC4 0 * stdC4 0 = varC4 0) ∧
    ((0 : ℚ) ≤ stdEC4 0 ∧ stdEC4 0 * stdEC4 0 = varC4 0 + 5) ∧
    (brnBackward5 1 1 one3 oneChan one3 zeroChan varC4 stdC4).gx 0 0 0 =
      1 / 2 ∧
    (brnBackward5Claim 1 1 one3 oneChan one3 zeroChan varC4 5
      stdEC4).gx 0 0 0 = 1 / 3 ∧
    (brnBackward5 1 1 one3 oneChan one3 zeroChan varC4 stdC4).gx 0 0 0 ≠
      (brnBackward5Claim 1 1 one3 oneChan one3 zeroChan varC4 5
        stdEC4).gx 0 0 0 := by
  norm_num [brnBackward5, brnBackward5Claim, xhatOf, one3, oneChan,
    zeroChan, varC4, stdC4, stdEC4]

/-- C4 amended: the fixed-statistics backward returns exactly five
gradients, one per original input (x, gamma, beta, mean, var), computed
with std recomputed from the supplied var alone (no eps offset):
gs = gamma/std, gbeta = sum(gy), ggamma = sum(gy*x_hat),
gmean = -gs*gbeta, gvar = -0.5*gamma/var*ggamma, gx = gs*gy. -/
theorem C4_amended_fixed_backward (N S : ℕ) (x : ℕ → ℕ → ℕ → ℚ)
    (gamma : ℕ → ℚ) (gy : ℕ → ℕ → ℕ → ℚ) (mean var std stdA : ℕ → ℚ)
    (hstd : ∀ ch, 0 ≤ std ch ∧ std ch * std ch = var ch)
    (hstdA : ∀ ch, 0 ≤ stdA ch ∧ stdA ch * stdA ch = var ch) :
    (∀ n ch s, (brnBackward5 N S x gamma gy mean var std).gx n ch s =
      (brnBackward5Amended N S x gamma gy mean var stdA).gx n ch s) ∧
    (∀ ch, (brnBackward5 N S x gamma gy mean var std).ggamma ch =
      (brnBackward5Amended N S x gamma gy mean var stdA).ggamma ch) ∧
    (∀ ch, (brnBackward5 N S x gamma gy mean var std).gbeta ch =
      (brnBackward5Amended N S x gamma gy mean var stdA).gbeta ch) ∧
    (∀ ch, (brnBackward5 N S x gamma gy mean var std).gmean ch =
      (brnBackward5Amended N S x gamma gy mean var stdA).gmean ch) ∧
    (∀ ch, (brnBackward5 N S x gamma gy mean var std).gvar ch =
      (brnBackward5Amended N S x gamma gy mean var stdA).gvar ch) := by
  have hss : ∀ ch, std ch = stdA ch := by
    intro ch
    exact (mul_self_inj (hstd ch).1 (hstdA ch).1).mp
      ((hstd ch).2.trans (hstdA ch).2.symm)
  refine ⟨?_, ?_, ?_, ?_, ?_⟩ <;>
    · intros
      simp only [brnBackward5, brnBackward5Amended, xhatOf, hss]

/-- Witness for C4 with var = 4, std = 2 on both sides: the gx entries
agree. -/
theorem C4_witness :
    (brnBackward5 1 1 one3 oneChan one3 zeroChan varC4 stdC4).gx 0 0 0 =
      (brnBackward5Amended 1 1 one3 oneChan one3 zeroChan varC4
        stdC4).gx 0 0 0 :=
  (C4_amended_fixed_backward 1 1 one3 oneChan one3 zeroChan varC4 stdC4
    stdC4 (fun ch => ⟨by norm_num [stdC4], by norm_num [stdC4, varC4]⟩)
    (fun ch => ⟨by norm_num [stdC4], by norm_num [stdC4, varC4]⟩)).1 0 0 0

/-- C8: the training-mode backward computes gbeta = sum(gy),
ggamma = sum(gy * x_hat_renorm), gsigma_batch = sum(gy * x_hat) and
gx = (r*gamma/std) * (gy - (x_hat*gsigma_batch + gbeta)/m) with m the
per-channel reduction count N*S, exactly as the claim's formulas state. -/
theorem C8_train_backward (N C S : ℕ) (gamma : ℕ → ℚ)
    (gy x_hat x_hat_renorm : ℕ → ℕ → ℕ → ℚ) (std r : ℕ → ℚ) (hC : 0 < C) :
    (∀ n ch s,
      (brnBackward3 N C S gamma gy x_hat x_hat_renorm std r).gx n ch s =
        (brnBackward3Spec N S gamma gy x_hat x_hat_renorm std r).gx n ch s) ∧
    (∀ ch, (brnBackward3 N C S gamma gy x_hat x_hat_renorm std r).ggamma ch =
      (brnBackward3Spec N S gamma gy x_hat x_hat_renorm std r).ggamma ch) ∧
    (∀ ch, (brnBackward3 N C S gamma gy x_hat x_hat_renorm std r).gbeta ch =
      (brnBackward3Spec N S gamma gy x_hat x_hat_renorm std r).gbeta ch) := by
  have hm : N * C * S / C = N * S := by
    rw [show N * C * S = C * (N * S) by ring]
    exact Nat.mul_div_cancel_left _ hC
  refine ⟨?_, fun _ => rfl, fun _ => rfl⟩
  intro n ch s
  simp only [brnBackward3, brnBackward3Spec, hm]

/-- Witness for C8 at a one-element batch: the gx entries agree. -/
theorem C8_witness :
    (brnBackward3 1 1 1 oneChan one3 one3 one3 stdC4 oneChan).gx 0 0 0 =
      (brnBackward3Spec 1 1 oneChan one3 one3 one3 stdC4 oneChan).gx 0 0 0 :=
  (C8_train_backward 1 1 1 oneChan one3 one3 one3 stdC4 oneChan
    (by decide)).1 0 0 0

end ChainerSpec
